import Mathlib

/-!
Verification of the tinytasktree task-execution engine against its
natural-language specification.

The repository ships the engine's test-suite and examples; the engine module
itself (`tinytasktree`) is not part of the source tree.  The definitions below
are therefore a shallow embedding modelled from the specification (spec.md),
with concrete behaviours pinned by the repository's tests wherever the tests
exercise them.  A node is embedded denotationally as a state transformer over
an explicit blackboard type: `NodeFn σ = σ → Result × σ`.  Exceptions raised
by user callables are modelled as an explicit `CallOutcome` constructor, and
programming errors (build-time structural misuse, Gather length mismatch) are
modelled with `Except`, keeping them on a different channel from FAIL Results.
-/

namespace Tinytasktree

/-- Modelled from the spec: the two-state outcome status of a node run. -/
inductive Status where
  | ok : Status
  | fail : Status
deriving DecidableEq, Repr

/-- Modelled from the spec: opaque payload values carried by Results and
blackboards.  Python's `None` is the explicit `none` constructor; the payload
universe is closed over the value shapes the tests exercise (strings,
integers, booleans, lists). -/
inductive PyVal where
  | none : PyVal
  | bool : Bool → PyVal
  | int : Int → PyVal
  | str : String → PyVal
  | list : List PyVal → PyVal

/-- Modelled from the spec: `Result` is a tagged two-state outcome (OK/FAIL)
carrying an opaque payload; a FAIL may carry data and an OK may carry none. -/
structure Result where
  status : Status
  data : PyVal

/-- Helper constructor `OK(data)`. -/
def Result.OK (d : PyVal) : Result := ⟨Status.ok, d⟩

/-- Helper constructor `FAIL(data)`. -/
def Result.FAIL (d : PyVal) : Result := ⟨Status.fail, d⟩

/-- The `is_ok()` predicate on Results. -/
def Result.is_ok (r : Result) : Bool :=
  match r.status with
  | Status.ok => true
  | Status.fail => false

/-- A node, embedded denotationally: it consumes a blackboard of type `σ` and
produces a `Result` together with the (possibly mutated) blackboard. -/
def NodeFn (σ : Type) : Type := σ → Result × σ

/-- Modelled from the spec: the `Sequence` loop.  Runs children strictly in
order, threading the data of the most recent successful child; on the first
failing child it stops immediately and returns FAIL carrying that threaded
data (the repository's tests `test_sequence_any_failure` and `test_assert`
pin the FAIL payload to the prior success's data, `None` when no earlier
child succeeded, and spec §9 instructs preserving the behaviour exactly as
tested); if all children succeed it returns OK with the last child's data. -/
def sequenceAux {σ : Type} : List (NodeFn σ) → PyVal → σ → Result × σ
  | [], lastOk, b => (Result.OK lastOk, b)
  | c :: cs, lastOk, b =>
    match c b with
    | (r, b2) =>
      match r.status with
      | Status.ok => sequenceAux cs r.data b2
      | Status.fail => (Result.FAIL lastOk, b2)

/-- The `Sequence` composite node. -/
def sequenceNode {σ : Type} (children : List (NodeFn σ)) : NodeFn σ :=
  fun b => sequenceAux children PyVal.none b

/-- Scripted children used to observe execution order: the child scripted by
the `i`-th result (counting from `k`) returns that result and appends its
index `k + i` to the visit log carried as the blackboard. -/
def scriptedFrom (k : Nat) : List Result → List (NodeFn (List Nat))
  | [] => []
  | r :: rs => (fun log => (r, log ++ [k])) :: scriptedFrom (k + 1) rs

/-- Scripted children indexed from 0. -/
def scripted (rs : List Result) : List (NodeFn (List Nat)) :=
  scriptedFrom 0 rs

/-- Whether every scripted result is OK. -/
def allOk : List Result → Bool
  | [] => true
  | r :: rs =>
    match r.status with
    | Status.ok => allOk rs
    | Status.fail => false

/-- Data of the last result in the list (`none` for an empty list). -/
def lastData : List Result → PyVal
  | [] => PyVal.none
  | [r] => r.data
  | _ :: r :: rs => lastData (r :: rs)

/-- Number of children a Sequence executes: every child up to and including
the first failing one, or all of them when none fails. -/
def seqExecCount : List Result → Nat
  | [] => 0
  | r :: rs =>
    match r.status with
    | Status.ok => seqExecCount rs + 1
    | Status.fail => 1

/-- Data of the most recent OK result strictly before the first FAIL,
starting from a given accumulator. -/
def lastOkBefore : List Result → PyVal → PyVal
  | [], acc => acc
  | r :: rs, acc =>
    match r.status with
    | Status.ok => lastOkBefore rs r.data
    | Status.fail => acc

theorem sequenceAux_scriptedFrom (rs : List Result) (k : Nat) (lastOk : PyVal)
    (log : List Nat) :
    sequenceAux (scriptedFrom k rs) lastOk log =
      ((if allOk rs then Result.OK (lastOkBefore rs lastOk)
        else Result.FAIL (lastOkBefore rs lastOk)),
       log ++ List.range' k (seqExecCount rs)) := by
  induction rs generalizing k lastOk log with
  | nil => simp [scriptedFrom, sequenceAux, allOk, lastOkBefore, seqExecCount]
  | cons r rs ih =>
    cases hs : r.status with
    | ok =>
      simp [scriptedFrom, sequenceAux, hs, allOk, lastOkBefore, seqExecCount,
        ih, List.range'_succ, List.append_assoc]
    | fail =>
      simp [scriptedFrom, sequenceAux, hs, allOk, lastOkBefore, seqExecCount,
        List.range'_succ]

theorem lastData_cons_eq (x y : Result) (h : x.data = y.data) (l : List Result) :
    lastData (x :: l) = lastData (y :: l) := by
  cases l with
  | nil => simp [lastData, h]
  | cons z zs => simp [lastData]

theorem lastOkBefore_of_allOk (rs : List Result) (acc : PyVal)
    (h : allOk rs = true) :
    lastOkBefore rs acc = lastData (Result.OK acc :: rs) := by
  induction rs generalizing acc with
  | nil => simp [lastOkBefore, lastData, Result.OK]
  | cons r rs ih =>
    cases hs : r.status with
    | ok =>
      have h2 : allOk rs = true := by
        simpa [allOk, hs] using h
      have hstep : lastOkBefore (r :: rs) acc = lastOkBefore rs r.data := by
        simp [lastOkBefore, hs]
      rw [hstep, ih r.data h2]
      have hd : lastData (Result.OK acc :: r :: rs) = lastData (r :: rs) := by
        cases rs <;> simp [lastData]
      rw [hd]
      exact lastData_cons_eq (Result.OK r.data) r rfl rs
    | fail =>
      exfalso
      simp [allOk, hs] at h

theorem seqExecCount_eq_min (rs : List Result) :
    seqExecCount rs = min rs.length (rs.findIdx (fun r => ! r.is_ok) + 1) := by
  induction rs with
  | nil => simp [seqExecCount]
  | cons r rs ih =>
    cases hs : r.status with
    | ok =>
      have hok : r.is_ok = true := by simp [Result.is_ok, hs]
      simp [seqExecCount, hs, List.findIdx_cons, hok, ih, Nat.succ_min_succ]
    | fail =>
      have hok : r.is_ok = false := by simp [Result.is_ok, hs]
      simp [seqExecCount, hs, List.findIdx_cons, hok]

theorem seq_helpers_append (pre : List Result) (r1 r2 : Result)
    (rest : List Result) (h1 : allOk pre = true) (h2 : r1.status = Status.ok)
    (h3 : r2.status = Status.fail) (acc : PyVal) :
    allOk (pre ++ r1 :: r2 :: rest) = false
    ∧ lastOkBefore (pre ++ r1 :: r2 :: rest) acc = r1.data
    ∧ seqExecCount (pre ++ r1 :: r2 :: rest) = pre.length + 2 := by
  induction pre generalizing acc with
  | nil => simp [allOk, lastOkBefore, seqExecCount, h2, h3]
  | cons p ps ih =>
    cases hp : p.status with
    | ok =>
      have h1b : allOk ps = true := by simpa [allOk, hp] using h1
      obtain ⟨ha, hb, hc⟩ := ih h1b p.data
      refine ⟨?_, ?_, ?_⟩ <;>
        simp [allOk, lastOkBefore, seqExecCount, hp, ha, hb, hc]
    | fail =>
      exfalso
      simp [allOk, hp] at h1

/-- C1 (amended): the Sequence composite runs its children strictly in order
and stops at the first failing child — the visit log is exactly the indices
up to and including the first FAIL (so later children never execute) — and
returns OK if and only if every child returns OK, in which case the data is
the last child's data.  The FAIL returned at the first failing child carries
the most recent successful child's data (None when no earlier child
succeeded), not the failing child's own payload. -/
theorem sequence_first_fail_semantics (rs : List Result) :
    sequenceNode (scripted rs) [] =
      ((if allOk rs then Result.OK (lastData rs)
        else Result.FAIL (lastOkBefore rs PyVal.none)),
       List.range (seqExecCount rs))
    ∧ (sequenceNode (scripted rs) []).1.is_ok = allOk rs
    ∧ seqExecCount rs = min rs.length (rs.findIdx (fun r => ! r.is_ok) + 1) := by
  have hmain : sequenceNode (scripted rs) [] =
      ((if allOk rs then Result.OK (lastData rs)
        else Result.FAIL (lastOkBefore rs PyVal.none)),
       List.range (seqExecCount rs)) := by
    show sequenceAux (scriptedFrom 0 rs) PyVal.none [] = _
    rw [sequenceAux_scriptedFrom rs 0 PyVal.none []]
    rw [List.range_eq_range']
    cases hall : allOk rs with
    | true =>
      have hold : lastOkBefore rs PyVal.none = lastData (Result.OK PyVal.none :: rs) :=
        lastOkBefore_of_allOk rs PyVal.none hall
      have hlast : lastData (Result.OK PyVal.none :: rs) = lastData rs := by
        cases rs <;> simp [lastData, Result.OK]
      simp [hold, hlast]
    | false => simp
  refine ⟨hmain, ?_, seqExecCount_eq_min rs⟩
  rw [hmain]
  cases hall : allOk rs <;> simp [hall, Result.is_ok, Result.OK, Result.FAIL]

/-- Witness for C1 (amended): at the scripted results OK("x"), FAIL(None),
OK("y") the Sequence returns FAIL("x") and executes exactly the first two
children. -/
theorem sequence_first_fail_semantics_witness :
    sequenceNode
        (scripted [Result.OK (PyVal.str "x"), Result.FAIL PyVal.none,
          Result.OK (PyVal.str "y")]) [] =
      (Result.FAIL (PyVal.str "x"), List.range 2) := by
  have h := sequence_first_fail_semantics
    [Result.OK (PyVal.str "x"), Result.FAIL PyVal.none, Result.OK (PyVal.str "y")]
  exact h.1

/-- C1 counterexample: a Sequence of a child returning OK with data `"a"`
followed by a Failure child (which supplies FAIL with data None) returns
FAIL carrying `"a"` — the preceding OK child's data IS used, contradicting
the claim that the FAIL carries the data the failing child itself supplied
(None). -/
theorem sequence_claim_counterexample :
    sequenceNode (scripted [Result.OK (PyVal.str "a"), Result.FAIL PyVal.none]) [] =
      (Result.FAIL (PyVal.str "a"), [0, 1])
    ∧ Result.FAIL (PyVal.str "a") ≠ Result.FAIL PyVal.none := by
  refine ⟨rfl, ?_⟩
  intro h
  simp [Result.FAIL] at h

/-- C2: when a Sequence child fails after at least one earlier child
succeeded, the FAIL returned by the Sequence carries the most recent
successful child's data, and the children after the failing one never
execute (the visit log stops at the failing child). -/
theorem sequence_fail_carries_last_success (pre : List Result) (r1 r2 : Result)
    (rest : List Result) (h1 : allOk pre = true) (h2 : r1.status = Status.ok)
    (h3 : r2.status = Status.fail) :
    sequenceNode (scripted (pre ++ r1 :: r2 :: rest)) [] =
      (Result.FAIL r1.data, List.range (pre.length + 2)) := by
  obtain ⟨ha, hb, hc⟩ := seq_helpers_append pre r1 r2 rest h1 h2 h3 PyVal.none
  show sequenceAux (scriptedFrom 0 (pre ++ r1 :: r2 :: rest)) PyVal.none [] = _
  rw [sequenceAux_scriptedFrom, List.range_eq_range', ha, hb, hc]
  simp

/-- Witness for C2: a Function child returning OK `"a"`, then a Failure
child, then a third child; the Sequence returns FAIL with data `"a"` and
only the first two children execute. -/
theorem sequence_fail_carries_last_success_witness :
    sequenceNode
        (scripted [Result.OK (PyVal.str "a"), Result.FAIL PyVal.none,
          Result.OK (PyVal.str "c")]) [] =
      (Result.FAIL (PyVal.str "a"), List.range 2) :=
  sequence_fail_carries_last_success [] (Result.OK (PyVal.str "a"))
    (Result.FAIL PyVal.none) [Result.OK (PyVal.str "c")] rfl rfl rfl

/-- Failed children's positions hold an explicit None marker rather than
their FAIL payload; OK children's positions hold their data. -/
def maskFails (rs : List Result) : List PyVal :=
  rs.map (fun r => if r.is_ok then r.data else PyVal.none)

/-- Modelled from the spec: Parallel/Gather aggregation.  Returns OK only if
all children returned OK, otherwise FAIL; the data is a list positioned by
child order where failed children's positions hold None. -/
def combineResults (rs : List Result) : Result :=
  ⟨if allOk rs then Status.ok else Status.fail, PyVal.list (maskFails rs)⟩

/-- Modelled from the spec: structural misuse raises a
`TasktreeProgrammingError`, a distinct error channel from FAIL Results. -/
structure TasktreeProgrammingError where
  msg : String
deriving DecidableEq, Repr

/-- Modelled from the spec: the `Parallel` composite.  All children run
concurrently against the shared blackboard and the engine waits for all of
them; result positions always match input order regardless of completion
order, so the aggregation is a pure function of the per-child Results
(concurrent blackboard mutation is the caller's responsibility and is not
modelled). -/
def parallelNode {σ : Type} (children : List (σ → Result)) (b : σ) : Result :=
  combineResults (children.map (fun c => c b))

/-- Modelled from the spec: the `Gather` composite.  A caller factory
computes (trees, blackboards) pairs at invocation time; a length mismatch is
a programming error raised immediately (never swallowed into FAIL); each
tree runs against its own derived blackboard and results are collected in
input order with Parallel's aggregation rule. -/
def gatherNode {σ τ : Type} (factory : σ → List (NodeFn τ) × List τ) :
    σ → Except TasktreeProgrammingError (Result × σ) := fun b =>
  match factory b with
  | (trees, boards) =>
    if trees.length = boards.length then
      Except.ok
        (combineResults ((trees.zip boards).map (fun p => (p.1 p.2).1)), b)
    else
      Except.error ⟨"Gather params length mismatch"⟩

theorem allOk_iff_forall (rs : List Result) :
    allOk rs = true ↔ ∀ i (hi : i < rs.length), rs[i].is_ok = true := by
  induction rs with
  | nil => simp [allOk]
  | cons r rs ih =>
    cases hs : r.status with
    | ok =>
      simp only [allOk, hs, List.length_cons]
      rw [ih]
      constructor
      · intro h i hi
        cases i with
        | zero => simp [Result.is_ok, hs]
        | succ j =>
          have hj : j < rs.length := Nat.lt_of_succ_lt_succ hi
          simpa using h j hj
      · intro h i hi
        simpa using h (i + 1) (Nat.succ_lt_succ hi)
    | fail =>
      simp only [allOk, hs, List.length_cons]
      constructor
      · intro h
        exact absurd h (by simp)
      · intro h
        have h0 := h 0 (Nat.succ_pos rs.length)
        simp [Result.is_ok, hs] at h0

theorem maskFails_of_allOk (rs : List Result) (h : allOk rs = true) :
    maskFails rs = rs.map (fun r => r.data) := by
  induction rs with
  | nil => rfl
  | cons r rs ih =>
    cases hs : r.status with
    | ok =>
      have h2 : allOk rs = true := by simpa [allOk, hs] using h
      simp [maskFails, Result.is_ok, hs] at ih ⊢
      exact ih h2
    | fail => simp [allOk, hs] at h

/-- Concrete Gather scenario from `test_gather_any_fail`: a child tree whose
function returns its own blackboard's value (1) and a child tree that is a
Failure node, over blackboards [1, 2]. -/
def gatherExampleFactory : Unit → List (NodeFn Int) × List Int := fun _ =>
  ([fun cb => (Result.OK (PyVal.int cb), cb),
    fun cb => (Result.FAIL PyVal.none, cb)],
   [1, 2])

/-- C3: Parallel/Gather aggregation.  With exactly one failing child among N
the overall Result is FAIL and its data is the list, in input order and of
length N, holding None at the failing position and each other child's OK
data elsewhere; with all children OK the Result is OK with every child's
data in input order.  Concretely, a Gather over an OK child producing 1 and
a failing child yields FAIL with data [1, None]. -/
theorem parallel_gather_one_fail_masking :
    (∀ (rs : List Result) (k : Nat) (hk : k < rs.length),
      rs[k].is_ok = false →
      (∀ i (hi : i < rs.length), i ≠ k → rs[i].is_ok = true) →
      combineResults rs = Result.FAIL (PyVal.list (maskFails rs))
        ∧ (maskFails rs).length = rs.length
        ∧ (maskFails rs)[k]? = Option.some PyVal.none
        ∧ ∀ i (hi : i < rs.length), i ≠ k →
            (maskFails rs)[i]? = Option.some rs[i].data)
    ∧ (∀ rs, allOk rs = true →
        combineResults rs = Result.OK (PyVal.list (rs.map (fun r => r.data))))
    ∧ (∀ (σ : Type) (children : List (σ → Result)) (b : σ),
        parallelNode children b = combineResults (children.map (fun c => c b)))
    ∧ gatherNode gatherExampleFactory () =
        Except.ok (Result.FAIL (PyVal.list [PyVal.int 1, PyVal.none]), ()) := by
  refine ⟨?_, ?_, fun σ children b => rfl, rfl⟩
  · intro rs k hk hfail hothers
    have hnotall : allOk rs = false := by
      cases hall : allOk rs with
      | true =>
        have := (allOk_iff_forall rs).mp hall k hk
        rw [hfail] at this
        exact absurd this (by simp)
      | false => rfl
    refine ⟨by simp [combineResults, hnotall, Result.FAIL],
      by simp [maskFails], ?_, ?_⟩
    · simp [maskFails, List.getElem?_eq_getElem hk, hfail]
    · intro i hi hne
      have hok := hothers i hi hne
      simp [maskFails, List.getElem?_eq_getElem hi, hok]
  · intro rs h
    simp [combineResults, h, maskFails_of_allOk rs h, Result.OK]

/-- Witness for C3: two children where the first returns OK(1) and the
second fails — the combined Result is FAIL with data list [1, None]. -/
theorem parallel_gather_one_fail_masking_witness :
    combineResults [Result.OK (PyVal.int 1), Result.FAIL PyVal.none] =
      Result.FAIL (PyVal.list [PyVal.int 1, PyVal.none]) := by
  have h := parallel_gather_one_fail_masking.1
    [Result.OK (PyVal.int 1), Result.FAIL PyVal.none] 1 (by decide) rfl
    (fun i hi hne => by
      have hi2 : i < 2 := by simpa using hi
      have hz : i = 0 := by omega
      subst hz
      rfl)
  exact h.1

/-- The external key-value store used by the caching decorator, as an
association list from cache key to the cached Result and the validator tag
stored alongside it (none when no validator was configured at store time). -/
def CacheStore : Type := List (String × Result × Option String)

/-- Minimal store capability `get(key) -> value|absent`. -/
def storeGet : CacheStore → String → Option (Result × Option String)
  | [], _ => Option.none
  | (k, v) :: rest, key => if k = key then Option.some v else storeGet rest key

/-- Minimal store capability `set(key, value)`; expiration is not modelled
(the round-trip claims play out within a single expiry window). -/
def storeSet : CacheStore → String → Result × Option String → CacheStore
  | [], key, v => [(key, v)]
  | (k, w) :: rest, key, v =>
    if k = key then (key, v) :: rest else (k, w) :: storeSet rest key v

/-- The miss path of the caching decorator: run the child, and store its
Result together with the current validator tag when the Result is OK. -/
def cacherMiss {σ : Type} (key : String) (tag : Option String)
    (child : NodeFn σ) (b : σ) (store : CacheStore) :
    Result × (σ × CacheStore) :=
  match child b with
  | (r, b2) =>
    (r, (b2, if r.is_ok then storeSet store key (r, tag) else store))

/-- Modelled from the spec: the generic caching decorator (RedisCacher is
the concrete binding).  Computes a key from the blackboard and looks it up
in the store.  On a hit it checks the optional `value_validator` tag against
the tag stored alongside the cached value; if the tag matches (or no
validator is configured) it returns the cached Result without running the
child.  On a miss, or on a validator mismatch, it runs the child and on OK
stores the Result with the current tag, then returns the child's Result. -/
def cacherExec {σ : Type} (key_func : σ → String)
    (value_validator : Option (σ → String)) (child : NodeFn σ) :
    σ × CacheStore → Result × (σ × CacheStore) :=
  fun bs =>
    match bs with
    | (b, store) =>
      let key := key_func b
      match storeGet store key with
      | Option.none => cacherMiss key (value_validator.map (fun f => f b)) child b store
      | Option.some (cached, storedTag) =>
        match value_validator with
        | Option.none => (cached, (b, store))
        | Option.some vf =>
          if storedTag = Option.some (vf b) then (cached, (b, store))
          else cacherMiss key (Option.some (vf b)) child b store

theorem storeGet_storeSet_self (s : CacheStore) (k : String)
    (v : Result × Option String) : storeGet (storeSet s k v) k = Option.some v := by
  induction s with
  | nil => simp [storeSet, storeGet]
  | cons e rest ih =>
    match e with
    | (k2, w) =>
      by_cases hk : k2 = k
      · subst hk
        simp [storeSet, storeGet]
      · simp [storeSet, storeGet, hk, ih]

/-- C4: RedisCacher round-trip.  With a fresh key the first invocation is a
miss: the child runs (its blackboard effect happens) and its OK Result is
stored under the key with the current validator tag.  A second invocation
against the resulting store, with the same key and unchanged validator tag,
is a hit: the cached Result (same data) is returned, the blackboard is left
unmutated, and the store is unchanged — the child does not run.  Changing
the validator tag makes the next invocation behave as a miss again: the
child reruns and its fresh Result is returned with the fresh blackboard
effect. -/
theorem cacher_round_trip {σ : Type} (key_func : σ → String)
    (validator : Option (σ → String)) (child : NodeFn σ) :
    (∀ (b : σ) (store : CacheStore),
      storeGet store (key_func b) = Option.none →
      (child b).1.is_ok = true →
      cacherExec key_func validator child (b, store) =
        ((child b).1, ((child b).2,
          storeSet store (key_func b)
            ((child b).1, validator.map (fun f => f b)))))
    ∧ (∀ (b2 : σ) (store : CacheStore) (r : Result),
      storeGet store (key_func b2) =
        Option.some (r, validator.map (fun f => f b2)) →
      cacherExec key_func validator child (b2, store) = (r, (b2, store)))
    ∧ (∀ (b3 : σ) (store : CacheStore) (r : Result) (tag : Option String)
        (vf : σ → String), validator = Option.some vf →
      storeGet store (key_func b3) = Option.some (r, tag) →
      tag ≠ Option.some (vf b3) →
      cacherExec key_func validator child (b3, store) =
        ((child b3).1, ((child b3).2,
          if (child b3).1.is_ok
          then storeSet store (key_func b3) ((child b3).1, Option.some (vf b3))
          else store))) := by
  refine ⟨?_, ?_, ?_⟩
  · intro b store hfresh hok
    simp only [cacherExec, hfresh, cacherMiss]
    match hc : child b with
    | (r, b2) =>
      rw [hc] at hok
      simp only [hc]
      simp [hok]
  · intro b2 store r hhit
    cases hv : validator with
    | none =>
      rw [hv] at hhit
      simp only [Option.map] at hhit
      simp [cacherExec, hhit]
    | some vf =>
      rw [hv] at hhit
      simp only [Option.map] at hhit
      simp [cacherExec, hhit]
  · intro b3 store r tag vf hv hget hne
    subst hv
    simp only [cacherExec, hget]
    rw [if_neg hne]
    rcases hc : child b3 with ⟨r3, b4⟩
    simp [cacherMiss, hc]

/-- A concrete cacher child for the witness: the blackboard is a counter
paired with a validator field; the child increments the counter and returns
OK with the new value. -/
def cacherWitnessChild : NodeFn (Nat × String) := fun p =>
  (Result.OK (PyVal.int (Int.ofNat (p.1 + 1))), (p.1 + 1, p.2))

/-- Witness for C4: key "k", validator reading the blackboard's tag field.
On the empty store the first invocation (tag "v1") misses, runs the child
and stores OK(1); a second invocation with tag "v1" hits, returning OK(1)
with blackboard and store untouched; an invocation with tag "v2" misses
again, rerunning the child and restoring with the new tag. -/
theorem cacher_round_trip_witness :
    cacherExec (fun _ => "k") (Option.some (fun p => p.2)) cacherWitnessChild
        ((0, "v1"), []) =
      (Result.OK (PyVal.int 1), ((1, "v1"),
        [("k", (Result.OK (PyVal.int 1), Option.some "v1"))]))
    ∧ cacherExec (fun _ => "k") (Option.some (fun p => p.2)) cacherWitnessChild
        ((0, "v1"), [("k", (Result.OK (PyVal.int 1), Option.some "v1"))]) =
      (Result.OK (PyVal.int 1), ((0, "v1"),
        [("k", (Result.OK (PyVal.int 1), Option.some "v1"))]))
    ∧ cacherExec (fun _ => "k") (Option.some (fun p => p.2)) cacherWitnessChild
        ((0, "v2"), [("k", (Result.OK (PyVal.int 1), Option.some "v1"))]) =
      (Result.OK (PyVal.int 1), ((1, "v2"),
        [("k", (Result.OK (PyVal.int 1), Option.some "v2"))])) := by
  refine ⟨?_, ?_, ?_⟩
  · exact (cacher_round_trip (fun _ => "k")
      (Option.some (fun p : Nat × String => p.2))
      cacherWitnessChild).1 (0, "v1") [] rfl rfl
  · exact (cacher_round_trip (fun _ => "k")
      (Option.some (fun p : Nat × String => p.2))
      cacherWitnessChild).2.1 (0, "v1")
      [("k", (Result.OK (PyVal.int 1), Option.some "v1"))]
      (Result.OK (PyVal.int 1)) rfl
  · exact (cacher_round_trip (fun _ => "k")
      (Option.some (fun p : Nat × String => p.2))
      cacherWitnessChild).2.2 (0, "v2")
      [("k", (Result.OK (PyVal.int 1), Option.some "v1"))]
      (Result.OK (PyVal.int 1)) (Option.some "v1")
      (fun p : Nat × String => p.2) rfl rfl (by simp)

/-- Modelled from the spec: the While loop body.  While the condition holds,
run the single child, keeping the last successful child Result; stop when
the condition becomes false or when the iteration cap (the remaining fuel)
is reached, returning the last successful Result; stop immediately when the
child fails, returning the last successful Result, not the failing one. -/
def whileAux {σ : Type} (cond : σ → Bool) (child : NodeFn σ) :
    Nat → Result → σ → Result × σ
  | 0, last, b => (last, b)
  | Nat.succ fuel, last, b =>
    if cond b then
      match child b with
      | (r, b2) =>
        match r.status with
        | Status.ok => whileAux cond child fuel r b2
        | Status.fail => (last, b2)
    else (last, b)

/-- The `While` composite node: the last-successful-Result accumulator
starts at FAIL(None), so a condition that is false on entry yields
FAIL(None) without running the child.  `max_loop_times` is the iteration
cap; an uncapped loop is modelled by a cap larger than the iterations the
condition allows. -/
def whileNode {σ : Type} (cond : σ → Bool) (child : NodeFn σ)
    (max_loop_times : Nat) : NodeFn σ :=
  fun b => whileAux cond child max_loop_times (Result.FAIL PyVal.none) b

/-- The incrementing child from the While tests: bumps the counter
blackboard and returns OK with the new count. -/
def incChild : NodeFn Nat := fun n =>
  (Result.OK (PyVal.int (Int.ofNat (n + 1))), n + 1)

/-- The `fail_on_two` child from `test_while_stops_on_child_failure`: bumps
the counter, fails when it reaches 2, otherwise returns OK with the new
count. -/
def failOnTwoChild : NodeFn Nat := fun n =>
  ((if n + 1 = 2 then Result.FAIL PyVal.none
    else Result.OK (PyVal.int (Int.ofNat (n + 1)))), n + 1)

/-- C5: While semantics.  A condition false on entry yields FAIL(None) and
the child never runs (the blackboard is untouched); condition `count < 3`
with an incrementing child yields OK(3) with the count ending at 3; a child
failing mid-loop stops iteration at once and the result is the last
successful child Result (OK(1) with count 2 for `fail_on_two` under
`count < 5`), not the failing one; an always-true condition capped by
`max_loop_times = 3` stops after 3 iterations and returns the last
successful Result (OK(3), count 3) as if the condition had become false. -/
theorem while_semantics :
    (∀ (σ : Type) (cond : σ → Bool) (child : NodeFn σ) (cap : Nat) (b : σ),
      cond b = false → whileNode cond child cap b = (Result.FAIL PyVal.none, b))
    ∧ whileNode (fun n => decide (n < 3)) incChild 100 0 =
        (Result.OK (PyVal.int 3), 3)
    ∧ whileNode (fun n => decide (n < 5)) failOnTwoChild 100 0 =
        (Result.OK (PyVal.int 1), 2)
    ∧ whileNode (fun _ => true) incChild 3 0 = (Result.OK (PyVal.int 3), 3) := by
  refine ⟨?_, rfl, rfl, rfl⟩
  intro σ cond child cap b hfalse
  cases cap with
  | zero => rfl
  | succ fuel => simp [whileNode, whileAux, hfalse]

/-- Witness for C5: with a condition that is always false, the child (here
the incrementing child) never runs: the loop returns FAIL(None) and leaves
the counter blackboard at its initial value 5. -/
theorem while_semantics_witness :
    whileNode (fun _ => false) incChild 100 5 = (Result.FAIL PyVal.none, 5) :=
  while_semantics.1 Nat (fun _ => false) incChild 100 5 rfl

/-- The sleep schedule of the Retry decorator: absent, a scalar applied to
every gap, or a list consumed positionally and clamped to its last element
once exhausted. -/
inductive SleepSpec where
  | noSleep : SleepSpec
  | scalar : Nat → SleepSpec
  | schedule : List Nat → SleepSpec

/-- Sleep duration before retry attempt `i + 1` (the `i`-th gap). -/
def sleepAt : SleepSpec → Nat → Nat
  | SleepSpec.noSleep, _ => 0
  | SleepSpec.scalar s, _ => s
  | SleepSpec.schedule l, i => l.getD i (l.getLastD 0)

/-- Modelled from the spec: the Retry loop.  Re-invokes the child while it
fails, up to the remaining-tries fuel; stops at the first OK (returning it)
or after exhausting tries (FAIL(None)).  The third component records the
sleeps performed between attempts, so that outcomes can be proved
independent of the schedule. -/
def retryAux {σ : Type} (child : NodeFn σ) (sleep : SleepSpec) :
    Nat → Nat → σ → Result × σ × List Nat
  | 0, _, b => (Result.FAIL PyVal.none, b, [])
  | Nat.succ fuel, idx, b =>
    match child b with
    | (r, b2) =>
      match r.status with
      | Status.ok => (r, b2, [])
      | Status.fail =>
        match fuel with
        | 0 => (Result.FAIL PyVal.none, b2, [])
        | Nat.succ _ =>
          match retryAux child sleep fuel (idx + 1) b2 with
          | (r2, b3, sl) => (r2, b3, sleepAt sleep idx :: sl)

/-- The `Retry` decorator node with `max_tries` and a sleep schedule. -/
def retryNode {σ : Type} (max_tries : Nat) (sleep : SleepSpec)
    (child : NodeFn σ) : σ → Result × σ × List Nat :=
  fun b => retryAux child sleep max_tries 0 b

/-- The `fail_then_succeed` child from the Retry tests: bumps the attempts
counter, fails on the first two attempts, then returns OK("ok"). -/
def failThenSucceedChild : NodeFn Nat := fun attempts =>
  ((if attempts + 1 < 3 then Result.FAIL PyVal.none
    else Result.OK (PyVal.str "ok")), attempts + 1)

/-- The `always_fail` child from the Retry tests: bumps the attempts counter
and fails. -/
def alwaysFailChild : NodeFn Nat := fun attempts =>
  (Result.FAIL PyVal.none, attempts + 1)

/-- C6: Retry semantics.  For every sleep schedule (none, scalar, or a
positional list clamped to its last element when exhausted): with
`max_tries = 3` over a child failing twice then succeeding, the result is
OK with the successful attempt's data and the child was invoked exactly 3
times; over an always-failing child the result is FAIL(None) with exactly 3
invocations — the schedule never changes counts or outcomes.  The recorded
gap lists show the schedule semantics: scalar 7 sleeps [7, 7], the
exhausted list [5] clamps to [5, 5], and [1, 2, 3] is consumed
positionally as [1, 2]. -/
theorem retry_semantics :
    (∀ sleep : SleepSpec,
      (retryNode 3 sleep failThenSucceedChild 0).1 = Result.OK (PyVal.str "ok")
        ∧ (retryNode 3 sleep failThenSucceedChild 0).2.1 = 3
        ∧ (retryNode 3 sleep alwaysFailChild 0).1 = Result.FAIL PyVal.none
        ∧ (retryNode 3 sleep alwaysFailChild 0).2.1 = 3)
    ∧ (retryNode 3 (SleepSpec.scalar 7) alwaysFailChild 0).2.2 = [7, 7]
    ∧ (retryNode 3 (SleepSpec.schedule [5]) alwaysFailChild 0).2.2 = [5, 5]
    ∧ (retryNode 3 (SleepSpec.schedule [1, 2, 3]) alwaysFailChild 0).2.2 =
        [1, 2] := by
  exact ⟨fun sleep => ⟨rfl, rfl, rfl, rfl⟩, rfl, rfl, rfl⟩

/-- Witness for C6: with no sleeping configured, Retry with max_tries 3
returns OK("ok") after exactly 3 attempts over the fail-twice child and
FAIL(None) after exactly 3 attempts over the always-failing child. -/
theorem retry_semantics_witness :
    (retryNode 3 SleepSpec.noSleep failThenSucceedChild 0).1 =
        Result.OK (PyVal.str "ok")
      ∧ (retryNode 3 SleepSpec.noSleep failThenSucceedChild 0).2.1 = 3
      ∧ (retryNode 3 SleepSpec.noSleep alwaysFailChild 0).1 =
        Result.FAIL PyVal.none
      ∧ (retryNode 3 SleepSpec.noSleep alwaysFailChild 0).2.1 = 3 :=
  retry_semantics.1 SleepSpec.noSleep

/-- A child with a declared running time, for the Timeout decorator's
cooperative timing model. -/
structure TimedNode (σ : Type) where
  dur : Nat
  run : NodeFn σ

/-- Modelled from the spec: the Timeout decorator.  Real time is abstracted
to the primary child's declared duration versus the budget.  On timely
completion the child's Result passes through.  On expiry the in-flight
primary task is cancelled and awaited before the decorator returns — the
third component of the output is true exactly when this cancellation
happened, and the cancelled primary's effects are discarded — then the
fallback child (when present) runs and its Result is returned, otherwise
the decorator returns FAIL(None). -/
def timeoutNode {σ : Type} (budget : Nat) (primary : TimedNode σ)
    (fallback : Option (NodeFn σ)) : σ → Result × σ × Bool :=
  fun b =>
    if primary.dur ≤ budget then
      match primary.run b with
      | (r, b2) => (r, b2, false)
    else
      match fallback with
      | Option.none => (Result.FAIL PyVal.none, b, true)
      | Option.some f =>
        match f b with
        | (r, b2) => (r, b2, true)

/-- C7: Timeout semantics.  A child completing within the budget has its
Result passed through unmodified (status, data, and blackboard effect) and
no cancellation happens; a child exceeding the budget with no fallback
yields FAIL(None) with the slow child's task cancelled before the
decorator returns; a child exceeding the budget with a fallback yields the
fallback's Result, again with the slow child fully cancelled first. -/
theorem timeout_semantics {σ : Type} (budget : Nat) (primary : TimedNode σ)
    (fallback : Option (NodeFn σ)) (b : σ) :
    (primary.dur ≤ budget →
      timeoutNode budget primary fallback b =
        ((primary.run b).1, (primary.run b).2, false))
    ∧ (budget < primary.dur → fallback = Option.none →
      timeoutNode budget primary fallback b = (Result.FAIL PyVal.none, b, true))
    ∧ (∀ f : NodeFn σ, budget < primary.dur → fallback = Option.some f →
      timeoutNode budget primary fallback b = ((f b).1, (f b).2, true)) := by
  refine ⟨?_, ?_, ?_⟩
  · intro h
    rcases hp : primary.run b with ⟨r, b2⟩
    simp [timeoutNode, h, hp]
  · intro h hf
    subst hf
    simp [timeoutNode, Nat.not_le_of_lt h]
  · intro f h hf
    subst hf
    rcases hp : f b with ⟨r, b2⟩
    simp [timeoutNode, Nat.not_le_of_lt h, hp]

/-- A fast child (duration 0) returning OK("fast"), for the witness. -/
def fastChild : TimedNode Nat := ⟨0, fun n => (Result.OK (PyVal.str "fast"), n)⟩

/-- A slow child (duration 10) returning OK("slow"), for the witness. -/
def slowChild : TimedNode Nat := ⟨10, fun n => (Result.OK (PyVal.str "slow"), n + 100)⟩

/-- Witness for C7: with budget 1, the fast child's OK("fast") passes
through uncancelled; the slow child with no fallback yields FAIL(None)
cancelled; the slow child with an OK("fallback") fallback yields the
fallback's Result, cancelled. -/
theorem timeout_semantics_witness :
    timeoutNode 1 fastChild Option.none 0 = (Result.OK (PyVal.str "fast"), 0, false)
    ∧ timeoutNode 1 slowChild Option.none 0 = (Result.FAIL PyVal.none, 0, true)
    ∧ timeoutNode 1 slowChild
        (Option.some (fun n => (Result.OK (PyVal.str "fallback"), n))) 0 =
      (Result.OK (PyVal.str "fallback"), 0, true) := by
  refine ⟨?_, ?_, ?_⟩
  · exact (timeout_semantics 1 fastChild Option.none 0).1 (by decide)
  · exact (timeout_semantics 1 slowChild Option.none 0).2.1 (by decide) rfl
  · exact (timeout_semantics 1 slowChild
      (Option.some (fun n => (Result.OK (PyVal.str "fallback"), n))) 0).2.2
      (fun n => (Result.OK (PyVal.str "fallback"), n)) (by decide) rfl

/-- Modelled from the spec: the shape of a built tree as seen by the
builder's `End()` validation pass: leaves, Sequence-like composites, If
nodes with their child list, Else marker nodes with their single child,
Timeout decorators with their child list, and Parallel composites with an
optional concurrency limit. -/
inductive NodeSpec where
  | leaf : NodeSpec
  | seq : List NodeSpec → NodeSpec
  | ifNode : List NodeSpec → NodeSpec
  | elseNode : NodeSpec → NodeSpec
  | timeoutSpec : List NodeSpec → NodeSpec
  | parallelSpec : Option Int → List NodeSpec → NodeSpec

mutual

/-- Modelled from the spec: whole-tree structural validation performed at
`End()`: a Timeout must own exactly one primary child and at most one
fallback child; an Else node is only legal as the second child of an If
node; a Parallel's concurrency limit must be positive. -/
def validNode : NodeSpec → Bool
  | NodeSpec.leaf => true
  | NodeSpec.seq cs => validList cs
  | NodeSpec.ifNode cs =>
    match cs with
    | [t] => validNode t
    | [t, NodeSpec.elseNode e] => validNode t && validNode e
    | _ => false
  | NodeSpec.elseNode _ => false
  | NodeSpec.timeoutSpec cs =>
    (decide (cs.length = 1) || decide (cs.length = 2)) && validList cs
  | NodeSpec.parallelSpec limit cs =>
    (match limit with
     | Option.none => true
     | Option.some l => decide (0 < l)) && validList cs

/-- Validation of a child list: every child must be valid. -/
def validList : List NodeSpec → Bool
  | [] => true
  | c :: cs => validNode c && validList cs

end

/-- Modelled from the spec: `End()` finalizes the tree, raising a
`TasktreeProgrammingError` (never a FAIL Result) on structural misuse. -/
def buildEnd (n : NodeSpec) : Except TasktreeProgrammingError NodeSpec :=
  if validNode n then Except.ok n else Except.error ⟨"invalid tree structure"⟩

/-- A Gather factory returning one tree but two blackboards, mirroring
`test_gather_params_mismatch`. -/
def gatherMismatchFactory : Unit → List (NodeFn Int) × List Int := fun _ =>
  ([fun cb => (Result.OK (PyVal.int cb), cb)], [1, 2])

/-- C8: structural misuse raises a TasktreeProgrammingError and is never
coerced into a FAIL Result: a Timeout with zero children or with three
children is rejected at End() (while one child is accepted), a Parallel
with concurrency_limit = 0 is rejected at End(), an Else node anywhere but
as an If node's second child is rejected at build time (while an Else as
the If's second child is accepted), and a Gather factory returning trees
and blackboards of different lengths raises immediately at invocation — on
the error channel, never as an ok-Result. -/
theorem programming_errors_raise :
    buildEnd (NodeSpec.timeoutSpec []) =
      Except.error ⟨"invalid tree structure"⟩
    ∧ buildEnd (NodeSpec.timeoutSpec [NodeSpec.leaf, NodeSpec.leaf, NodeSpec.leaf]) =
      Except.error ⟨"invalid tree structure"⟩
    ∧ buildEnd (NodeSpec.timeoutSpec [NodeSpec.leaf]) =
      Except.ok (NodeSpec.timeoutSpec [NodeSpec.leaf])
    ∧ buildEnd (NodeSpec.parallelSpec (Option.some 0) [NodeSpec.leaf]) =
      Except.error ⟨"invalid tree structure"⟩
    ∧ buildEnd (NodeSpec.seq [NodeSpec.elseNode NodeSpec.leaf]) =
      Except.error ⟨"invalid tree structure"⟩
    ∧ buildEnd (NodeSpec.ifNode [NodeSpec.leaf, NodeSpec.elseNode NodeSpec.leaf]) =
      Except.ok (NodeSpec.ifNode [NodeSpec.leaf, NodeSpec.elseNode NodeSpec.leaf])
    ∧ gatherNode gatherMismatchFactory () =
      Except.error ⟨"Gather params length mismatch"⟩
    ∧ (∀ out : Result × Unit, gatherNode gatherMismatchFactory () ≠ Except.ok out) := by
  refine ⟨rfl, rfl, rfl, rfl, rfl, rfl, rfl, ?_⟩
  intro out h
  exact Except.noConfusion h

/-- The outcome of invoking a user callable: it may raise an exception,
return a raw payload, or return a Result directly. -/
inductive CallOutcome where
  | raised : String → CallOutcome
  | value : PyVal → CallOutcome
  | result : Result → CallOutcome

/-- Modelled from the spec: the Function leaf.  Invokes a caller-supplied
callable against the blackboard; a raw payload is wrapped as OK(payload), a
returned Result passes through unchanged, and any raised exception is
caught at this leaf and converted to FAIL(None). -/
def functionNode {σ : Type} (f : σ → CallOutcome × σ) : NodeFn σ := fun b =>
  match f b with
  | (CallOutcome.raised _, b2) => (Result.FAIL PyVal.none, b2)
  | (CallOutcome.value v, b2) => (Result.OK v, b2)
  | (CallOutcome.result r, b2) => (r, b2)

/-- The outcome of invoking an Assert predicate: a raised assertion failure
or a returned value. -/
inductive PredOutcome where
  | raised : String → PredOutcome
  | value : PyVal → PredOutcome

/-- Python truthiness of a payload value. -/
def truthy : PyVal → Bool
  | PyVal.none => false
  | PyVal.bool bv => bv
  | PyVal.int n => decide (n ≠ 0)
  | PyVal.str s => decide (s ≠ "")
  | PyVal.list xs => ! xs.isEmpty

/-- Modelled from the spec: the Assert leaf.  Invokes a predicate; a truthy
return yields OK(True); a falsy return or a raised assertion failure yields
FAIL(None). -/
def assertNode {σ : Type} (p : σ → PredOutcome) : NodeFn σ := fun b =>
  match p b with
  | PredOutcome.raised _ => (Result.FAIL PyVal.none, b)
  | PredOutcome.value v =>
    if truthy v then (Result.OK (PyVal.bool true), b)
    else (Result.FAIL PyVal.none, b)

/-- C9: exceptions raised inside leaf logic are caught at that leaf and
converted to FAIL(None): a Function whose callable raises returns
FAIL(None) — and an enclosing Sequence simply observes that FAIL Result (no
exception propagates past the leaf, the composite completes normally) — an
Assert whose predicate raises returns FAIL(None), a falsy Assert predicate
returns FAIL(None), and a truthy Assert predicate returns OK(True). -/
theorem leaf_exceptions_become_fail {σ : Type} :
    (∀ (f : σ → CallOutcome × σ) (b b2 : σ) (msg : String),
      f b = (CallOutcome.raised msg, b2) →
      functionNode f b = (Result.FAIL PyVal.none, b2))
    ∧ (∀ (f : σ → CallOutcome × σ) (b b2 : σ) (msg : String)
        (siblings : List (NodeFn σ)),
      f b = (CallOutcome.raised msg, b2) →
      sequenceNode (functionNode f :: siblings) b = (Result.FAIL PyVal.none, b2))
    ∧ (∀ (p : σ → PredOutcome) (b : σ) (msg : String),
      p b = PredOutcome.raised msg →
      assertNode p b = (Result.FAIL PyVal.none, b))
    ∧ (∀ (p : σ → PredOutcome) (b : σ) (v : PyVal),
      p b = PredOutcome.value v → truthy v = false →
      assertNode p b = (Result.FAIL PyVal.none, b))
    ∧ (∀ (p : σ → PredOutcome) (b : σ) (v : PyVal),
      p b = PredOutcome.value v → truthy v = true →
      assertNode p b = (Result.OK (PyVal.bool true), b)) := by
  refine ⟨?_, ?_, ?_, ?_, ?_⟩
  · intro f b b2 msg h
    simp [functionNode, h]
  · intro f b b2 msg siblings h
    simp [sequenceNode, sequenceAux, functionNode, h, Result.FAIL]
  · intro p b msg h
    simp [assertNode, h]
  · intro p b v h hv
    simp [assertNode, h, hv]
  · intro p b v h hv
    simp [assertNode, h, hv]

/-- Witness for C9: a callable raising ValueError("boom") inside a
Sequence, a predicate raising AssertionError("nope"), a predicate returning
False, and a predicate returning True, each at a concrete counter
blackboard. -/
theorem leaf_exceptions_become_fail_witness :
    functionNode (fun n : Nat => (CallOutcome.raised "boom", n)) 0 =
      (Result.FAIL PyVal.none, 0)
    ∧ sequenceNode [functionNode (fun n : Nat => (CallOutcome.raised "boom", n))] 0 =
      (Result.FAIL PyVal.none, 0)
    ∧ assertNode (fun _ : Nat => PredOutcome.raised "nope") 0 =
      (Result.FAIL PyVal.none, 0)
    ∧ assertNode (fun _ : Nat => PredOutcome.value (PyVal.bool false)) 0 =
      (Result.FAIL PyVal.none, 0)
    ∧ assertNode (fun _ : Nat => PredOutcome.value (PyVal.bool true)) 0 =
      (Result.OK (PyVal.bool true), 0) := by
  refine ⟨?_, ?_, ?_, ?_, ?_⟩
  · exact leaf_exceptions_become_fail.1
      (fun n : Nat => (CallOutcome.raised "boom", n)) 0 0 "boom" rfl
  · exact leaf_exceptions_become_fail.2.1
      (fun n : Nat => (CallOutcome.raised "boom", n)) 0 0 "boom" [] rfl
  · exact leaf_exceptions_become_fail.2.2.1
      (fun _ : Nat => PredOutcome.raised "nope") 0 "nope" rfl
  · exact leaf_exceptions_become_fail.2.2.2.1
      (fun _ : Nat => PredOutcome.value (PyVal.bool false)) 0
      (PyVal.bool false) rfl rfl
  · exact leaf_exceptions_become_fail.2.2.2.2
      (fun _ : Nat => PredOutcome.value (PyVal.bool true)) 0
      (PyVal.bool true) rfl rfl

/-- Modelled from the spec: sample one index of a weight list.  Walks the
weights subtracting each from the target until the target drops below the
current weight, clamping to the final index; with the target drawn
uniformly from [0, total) this picks index `i` with probability
proportional to `ws[i]`. -/
def weightedPick : List Rat → Rat → Nat
  | [], _ => 0
  | [_], _ => 0
  | w :: ws, t => if t < w then 0 else weightedPick ws (t - w) + 1

/-- Pad (or truncate) a weight list to `n` entries, defaulting missing
weights to the uniform weight 1. -/
def padWeights (ws : List Rat) (n : Nat) : List Rat :=
  ws.take n ++ List.replicate (n - ws.length) 1

/-- The index `_weighted_shuffle` removes at step `t`: a weighted pick over
the current (padded) weights, driven by the `t`-th draw of the random
source scaled to the total weight. -/
def shuffleIdx (rand : Nat → Rat) (t : Nat) (ws : List Rat) (n : Nat) : Nat :=
  weightedPick (padWeights ws n) (rand t * (padWeights ws n).sum)

/-- Modelled from the spec: the `_weighted_shuffle` loop — repeatedly sample
one remaining index with probability proportional to its weight (default
uniform), remove it, append it to the order, until exhausted.  `rand` is
the deterministic seeded random source, consumed one draw per step; `fuel`
is the number of remaining steps (the remaining item count). -/
def weightedShuffleAux {α : Type} (rand : Nat → Rat) :
    Nat → Nat → List α → List Rat → List α
  | _, 0, _, _ => []
  | t, Nat.succ fuel, items, ws =>
    match items with
    | [] => []
    | x :: xs =>
      (x :: xs).getD (shuffleIdx rand t ws (xs.length + 1)) x ::
        weightedShuffleAux rand (t + 1) fuel
          ((x :: xs).eraseIdx (shuffleIdx rand t ws (xs.length + 1)))
          ((padWeights ws (xs.length + 1)).eraseIdx
            (shuffleIdx rand t ws (xs.length + 1)))

/-- `_weighted_shuffle` over a full item list. -/
def weightedShuffle {α : Type} (rand : Nat → Rat) (items : List α)
    (weights : List Rat) : List α :=
  weightedShuffleAux rand 0 items.length items weights

/-- Modelled from the spec: the Selector loop — runs children strictly in
order, stops at the first OK and returns it; if all fail, returns
FAIL(None). -/
def selectorAux {σ : Type} : List (NodeFn σ) → σ → Result × σ
  | [], b => (Result.FAIL PyVal.none, b)
  | c :: cs, b =>
    match c b with
    | (r, b2) =>
      match r.status with
      | Status.ok => (r, b2)
      | Status.fail => selectorAux cs b2

/-- Modelled from the spec: `RandomSelector` — a Selector whose children are
visited in the `_weighted_shuffle` order computed from the seeded random
source and the weight vector. -/
def randomSelectorNode {σ : Type} (rand : Nat → Rat)
    (children : List (NodeFn σ)) (weights : List Rat) : NodeFn σ :=
  fun b => selectorAux (weightedShuffle rand children weights) b

/-- Number of children a Selector executes: every child up to and including
the first OK one, or all of them when none succeeds. -/
def selExecCount : List Result → Nat
  | [] => 0
  | r :: rs =>
    match r.status with
    | Status.ok => 1
    | Status.fail => selExecCount rs + 1

/-- Data of the first OK result, if any. -/
def firstOkData : List Result → Option PyVal
  | [] => Option.none
  | r :: rs =>
    match r.status with
    | Status.ok => Option.some r.data
    | Status.fail => firstOkData rs

theorem weightedPick_lt (ws : List Rat) (t : Rat) (h : ws ≠ []) :
    weightedPick ws t < ws.length := by
  induction ws generalizing t with
  | nil => exact absurd rfl h
  | cons w ws ih =>
    cases ws with
    | nil => simp [weightedPick]
    | cons w2 ws2 =>
      by_cases ht : t < w
      · simp [weightedPick, ht]
      · have hrec := ih (t - w) (by simp)
        rw [List.length_cons] at hrec
        simp only [weightedPick, if_neg ht, List.length_cons]
        omega

theorem padWeights_length (ws : List Rat) (n : Nat) :
    (padWeights ws n).length = n := by
  simp [padWeights]
  omega

theorem shuffleIdx_lt (rand : Nat → Rat) (t : Nat) (ws : List Rat) (n : Nat)
    (h : 0 < n) : shuffleIdx rand t ws n < n := by
  have hlen := padWeights_length ws n
  have hne : padWeights ws n ≠ [] := by
    intro hnil
    rw [hnil] at hlen
    simp at hlen
    omega
  have := weightedPick_lt (padWeights ws n) (rand t * (padWeights ws n).sum) hne
  rw [hlen] at this
  exact this

theorem perm_get_cons_eraseIdx {α : Type} (l : List α) (i : Nat)
    (h : i < l.length) : l.Perm (l.get ⟨i, h⟩ :: l.eraseIdx i) := by
  conv_lhs => rw [← List.take_append_drop i l]
  rw [List.eraseIdx_eq_take_drop_succ]
  have hd : l.drop i = l.get ⟨i, h⟩ :: l.drop (i + 1) := by
    rw [List.drop_eq_getElem_cons h, List.get_eq_getElem]
  rw [hd]
  exact List.perm_middle

theorem weightedShuffleAux_perm {α : Type} (rand : Nat → Rat) (fuel : Nat) :
    ∀ (t : Nat) (items : List α) (ws : List Rat), items.length = fuel →
      (weightedShuffleAux rand t fuel items ws).Perm items := by
  induction fuel with
  | zero =>
    intro t items ws h
    have : items = [] := List.length_eq_zero.mp h
    subst this
    simp [weightedShuffleAux]
  | succ fuel ih =>
    intro t items ws h
    cases items with
    | nil => simp [weightedShuffleAux]
    | cons x xs =>
      have hi : shuffleIdx rand t ws (xs.length + 1) < (x :: xs).length := by
        rw [List.length_cons]
        exact shuffleIdx_lt rand t ws (xs.length + 1) (Nat.succ_pos _)
      have hlen2 : ((x :: xs).eraseIdx (shuffleIdx rand t ws (xs.length + 1))).length = fuel := by
        have h2 := List.length_eraseIdx_add_one hi
        rw [List.length_cons] at h2
        rw [List.length_cons] at h
        omega
      have hrec := ih (t + 1)
        ((x :: xs).eraseIdx (shuffleIdx rand t ws (xs.length + 1)))
        ((padWeights ws (xs.length + 1)).eraseIdx
          (shuffleIdx rand t ws (xs.length + 1))) hlen2
      have hgetd : (x :: xs).getD (shuffleIdx rand t ws (xs.length + 1)) x
          = (x :: xs).get ⟨shuffleIdx rand t ws (xs.length + 1), hi⟩ := by
        rw [List.getD_eq_getElem?_getD, List.getElem?_eq_getElem hi]
        simp
      show ((x :: xs).getD (shuffleIdx rand t ws (xs.length + 1)) x ::
        weightedShuffleAux rand (t + 1) fuel
          ((x :: xs).eraseIdx (shuffleIdx rand t ws (xs.length + 1)))
          ((padWeights ws (xs.length + 1)).eraseIdx
            (shuffleIdx rand t ws (xs.length + 1)))).Perm (x :: xs)
      rw [hgetd]
      exact ((hrec.cons _).trans (perm_get_cons_eraseIdx (x :: xs) _ hi).symm)

theorem weightedShuffleAux_congr {α : Type} (r1 r2 : Nat → Rat)
    (h : ∀ n, r1 n = r2 n) (fuel : Nat) :
    ∀ (t : Nat) (items : List α) (ws : List Rat),
      weightedShuffleAux r1 t fuel items ws = weightedShuffleAux r2 t fuel items ws := by
  induction fuel with
  | zero => intro t items ws; rfl
  | succ fuel ih =>
    intro t items ws
    cases items with
    | nil => rfl
    | cons x xs =>
      show ((x :: xs).getD (shuffleIdx r1 t ws (xs.length + 1)) x :: _) = _
      have hidx : shuffleIdx r1 t ws (xs.length + 1) = shuffleIdx r2 t ws (xs.length + 1) := by
        simp [shuffleIdx, h t]
      rw [hidx, ih]
      rfl

theorem selectorAux_scriptedFrom (rs : List Result) (k : Nat) (log : List Nat) :
    selectorAux (scriptedFrom k rs) log =
      ((match firstOkData rs with
        | Option.some d => Result.OK d
        | Option.none => Result.FAIL PyVal.none),
       log ++ List.range' k (selExecCount rs)) := by
  induction rs generalizing k log with
  | nil => simp [scriptedFrom, selectorAux, firstOkData, selExecCount]
  | cons r rs ih =>
    cases hs : r.status with
    | ok =>
      simp [scriptedFrom, selectorAux, hs, firstOkData, selExecCount,
        List.range'_succ, Result.OK]
      exact (Result.mk.injEq _ _ _ _).mpr ⟨hs.symm, rfl⟩ |>.symm ▸ rfl
    | fail =>
      simp [scriptedFrom, selectorAux, hs, firstOkData, selExecCount,
        ih, List.range'_succ, List.append_assoc]

/-- C10: RandomSelector's visit order is a deterministic function of the
random source and the weight vector: two runs driven by pointwise-equal
random sources produce the identical weighted-shuffle ordering; the
shuffle order is a permutation of the children, so with distinct children
each child appears at most once in the visit order; RandomSelector is
exactly a Selector run over the `_weighted_shuffle` order, and that
Selector stops at the first OK child, returning that child's data (running
exactly the children up to and including the first OK, FAIL(None) when all
fail). -/
theorem random_selector_deterministic_selector_like :
    (∀ (α : Type) (r1 r2 : Nat → Rat), (∀ n, r1 n = r2 n) →
      ∀ (items : List α) (ws : List Rat),
        weightedShuffle r1 items ws = weightedShuffle r2 items ws)
    ∧ (∀ (α : Type) (rand : Nat → Rat) (items : List α) (ws : List Rat),
        (weightedShuffle rand items ws).Perm items)
    ∧ (∀ (α : Type) (rand : Nat → Rat) (items : List α) (ws : List Rat),
        items.Nodup → (weightedShuffle rand items ws).Nodup)
    ∧ (∀ (σ : Type) (rand : Nat → Rat) (children : List (NodeFn σ))
        (ws : List Rat) (b : σ),
        randomSelectorNode rand children ws b =
          selectorAux (weightedShuffle rand children ws) b)
    ∧ (∀ (rs : List Result) (log : List Nat),
        selectorAux (scripted rs) log =
          ((match firstOkData rs with
            | Option.some d => Result.OK d
            | Option.none => Result.FAIL PyVal.none),
           log ++ List.range (selExecCount rs))) := by
  refine ⟨?_, ?_, ?_, fun σ rand children ws b => rfl, ?_⟩
  · intro α r1 r2 h items ws
    exact weightedShuffleAux_congr r1 r2 h items.length 0 items ws
  · intro α rand items ws
    exact weightedShuffleAux_perm rand items.length 0 items ws rfl
  · intro α rand items ws hnd
    exact ((weightedShuffleAux_perm rand items.length 0 items ws rfl).nodup_iff).mpr hnd
  · intro rs log
    rw [List.range_eq_range']
    exact selectorAux_scriptedFrom rs 0 log

/-- Witness for C10: two runs driven by the same constant random source
over children [10, 20, 30] with weights [1, 2, 3] produce the identical
ordering, and the shuffle of those distinct children has no duplicate. -/
theorem random_selector_deterministic_selector_like_witness :
    weightedShuffle (fun _ => (1 : Rat) / 2) [(10 : Nat), 20, 30] [1, 2, 3] =
      weightedShuffle (fun _ => (1 : Rat) / 2) [(10 : Nat), 20, 30] [1, 2, 3]
    ∧ (weightedShuffle (fun _ => (1 : Rat) / 2) [(10 : Nat), 20, 30] [1, 2, 3]).Nodup := by
  constructor
  · exact random_selector_deterministic_selector_like.1 Nat
      (fun _ => (1 : Rat) / 2) (fun _ => (1 : Rat) / 2) (fun n => rfl)
      [(10 : Nat), 20, 30] [1, 2, 3]
  · exact random_selector_deterministic_selector_like.2.2.1 Nat
      (fun _ => (1 : Rat) / 2) [(10 : Nat), 20, 30] [1, 2, 3] (by decide)

end Tinytasktree
